import Mathlib

/-!
Verification development for the Iguatemi contracts assistant
(`app_iguatemi.py`): a shallow embedding of the query-routing,
context-assembly, metadata-extraction and ingestion logic, with theorems
checking the natural-language specification against the code.

Python values parsed from JSON are modelled by the `Json` inductive;
Python operations that can raise (attribute access on a non-dict,
subscripting, indexing an empty result list) return `Option`, with `none`
standing for an uncaught exception.
-/

/-- JSON values as produced by Python's `json.load`. Numbers are modelled
as integers (no claim depends on float behaviour). Objects are ordered
association lists, mirroring `dict` insertion order. -/
inductive Json where
  | null
  | bool (b : Bool)
  | num (n : Int)
  | str (s : String)
  | arr (elems : List Json)
  | obj (fields : List (String × Json))

/-- Python truthiness (`if value:`) for JSON-derived values: `None`, `False`,
`0`, `""`, `[]` and `{}` are falsy, everything else truthy. -/
def pyTruthy : Json → Bool
  | .null => false
  | .bool b => b
  | .num n => n != 0
  | .str s => s != ""
  | .arr l => !l.isEmpty
  | .obj l => !l.isEmpty

/-- Key lookup in a JSON object; `none` when the receiver is not an object
or the key is missing. -/
def jLookup (j : Json) (k : String) : Option Json :=
  match j with
  | .obj kvs => kvs.lookup k
  | _ => none

/-- Whether a JSON value is an object. -/
def Json.isObjB : Json → Bool
  | .obj _ => true
  | _ => false

/-- Whether a JSON value is a string. -/
def Json.isStrB : Json → Bool
  | .str _ => true
  | _ => false

/-- Python's `value.get(key, default)`: `none` models the `AttributeError`
raised when `value` is not a dict; otherwise the stored value or the
default. -/
def pyGetD (j : Json) (k : String) (dflt : Json) : Option Json :=
  match j with
  | .obj kvs => some ((kvs.lookup k).getD dflt)
  | _ => none

/-- Python's `value.get(key)` with no default: `none` models the
`AttributeError` on a non-dict; `some r` carries the lookup result
(`r = none` models Python's `None` for a missing key). -/
def pyGet (j : Json) (k : String) : Option (Option Json) :=
  match j with
  | .obj kvs => some (kvs.lookup k)
  | _ => none

/-- Python's `value[0]` on a JSON-derived value: first element of a
nonempty list, first character of a nonempty string; everything else
raises (`none`). -/
def pySub0 : Json → Option Json
  | .arr (x :: _) => some x
  | .str s =>
    match s.data with
    | c :: _ => some (.str c.toString)
    | [] => none
  | _ => none

/-- Python's `str.lower()` on one character, restricted to the ASCII and
Latin-1 ranges that the keyword sets can interact with: `A`-`Z` and
`À`-`Þ` (except `×`) shift down to their lowercase forms. -/
def pyLowerChar (c : Char) : Char :=
  if 'A' ≤ c ∧ c ≤ 'Z' then Char.ofNat (c.toNat + 32)
  else if 'À' ≤ c ∧ c ≤ 'Þ' ∧ c ≠ '×' then Char.ofNat (c.toNat + 32)
  else c

/-- Python's `query.lower()`. -/
def pyLowerStr (s : String) : String :=
  ⟨s.data.map pyLowerChar⟩

/-- Python's substring test `needle in haystack`. -/
def pyInStr (needle haystack : String) : Bool :=
  decide (needle.data <:+: haystack.data)

/-- The fixed portfolio-scope keyword list of `main`
(`app_iguatemi.py` lines 184-186). -/
def globalKeywords : List String :=
  ["todos", "todas", "quantos", "quantas", "total",
   "geral", "shopping", "contratos"]

/-- The primary classification test of `main`:
`any(keyword in query.lower() for keyword in [...])`. -/
def isGlobalQuery (q : String) : Bool :=
  globalKeywords.any (fun kw => pyInStr kw (pyLowerStr q))

/-- Primary routing outcome. -/
inductive QueryType where
  | global
  | storeSpecific
deriving DecidableEq

/-- Primary classification: the branch `if is_global_query: ... else: ...`
of `main`. -/
def classify (q : String) : QueryType :=
  if isGlobalQuery q then .global else .storeSpecific

/-- Flat metadata summary built by `extract_metadata`
(`app_iguatemi.py` lines 36-50): the dict with the eight fixed keys.
Field values are arbitrary JSON values, as in the source, where
`dict.get` returns whatever the contract file stored. -/
structure MetadataSummary where
  store_name : Json
  cnpj : Json
  contract_number : Json
  store_area : Json
  contract_start : Json
  contract_end : Json
  floor : Json
  store_number : Json

/-- The metadata dict of a summary, in the key order of the source's
dict literal. -/
def metaDict (m : MetadataSummary) : List (String × Json) :=
  [("store_name", m.store_name), ("cnpj", m.cnpj),
   ("contract_number", m.contract_number), ("store_area", m.store_area),
   ("contract_start", m.contract_start), ("contract_end", m.contract_end),
   ("floor", m.floor), ("store_number", m.store_number)]

/-- The expression `content.get('contratos', [{}])[0] if
content.get('contratos') else {}` of `extract_metadata` line 39, given
the result of `content.get('contratos')`: the first contract sub-record,
or `{}` when the key is missing or falsy; `none` models a raising
subscript. -/
def contratoOf (contratosVal : Option Json) : Option Json :=
  match contratosVal with
  | some v => if pyTruthy v then pySub0 v else some (Json.obj [])
  | none => some (Json.obj [])

/-- The function `extract_metadata` (`app_iguatemi.py` lines 36-50),
with `none` modelling an uncaught exception (e.g. `.get` on a value that
is not a dict, or subscripting a non-sequence). -/
def extract_metadata (content : Json) : Option MetadataSummary := do
  let loja ← pyGetD content "loja" (Json.obj [])
  let contratosVal ← pyGet content "contratos"
  let contrato ← contratoOf contratosVal
  let storeName ← pyGetD loja "nome_fantasia" (Json.str "")
  let cnpj ← pyGetD loja "cnpj" (Json.str "")
  let contractNumber ← pyGetD contrato "numero_contrato" (Json.str "")
  let objeto₁ ← pyGetD contrato "objeto" (Json.obj [])
  let storeArea ← pyGetD objeto₁ "area_privativa" (Json.str "")
  let vigencia₁ ← pyGetD contrato "vigencia" (Json.obj [])
  let contractStart ← pyGetD vigencia₁ "data_inicial" (Json.str "")
  let vigencia₂ ← pyGetD contrato "vigencia" (Json.obj [])
  let contractEnd ← pyGetD vigencia₂ "data_final" (Json.str "")
  let objeto₂ ← pyGetD contrato "objeto" (Json.obj [])
  let floor ← pyGetD objeto₂ "piso" (Json.str "")
  let objeto₃ ← pyGetD contrato "objeto" (Json.obj [])
  let storeNumber ← pyGetD objeto₃ "loja" (Json.str "")
  pure ⟨storeName, cnpj, contractNumber, storeArea,
        contractStart, contractEnd, floor, storeNumber⟩

/-- Escape a string for JSON serialization (quote and backslash). -/
def escapeStr (s : String) : String :=
  s.data.foldr
    (fun c acc =>
      (if c = '"' ∨ c = '\\' then "\\" ++ c.toString else c.toString) ++ acc)
    ""

mutual

/-- Serialization of a JSON value, modelling
`json.dumps(content, ensure_ascii=False)`. -/
def dumps : Json → String
  | .null => "null"
  | .bool b => if b then "true" else "false"
  | .num n => toString n
  | .str s => "\"" ++ escapeStr s ++ "\""
  | .arr l => "[" ++ dumpsElems l ++ "]"
  | .obj kvs => "\x7b" ++ dumpsFields kvs ++ "\x7d"

/-- Serialization of the elements of a JSON array. -/
def dumpsElems : List Json → String
  | [] => ""
  | [x] => dumps x
  | x :: y :: xs => dumps x ++ ", " ++ dumpsElems (y :: xs)

/-- Serialization of the fields of a JSON object. -/
def dumpsFields : List (String × Json) → String
  | [] => ""
  | [(k, v)] => "\"" ++ escapeStr k ++ "\": " ++ dumps v
  | (k, v) :: kv :: kvs =>
    "\"" ++ escapeStr k ++ "\": " ++ dumps v ++ ", " ++
      dumpsFields (kv :: kvs)

end

/-- One entry of the Corpus Index: id, full serialized text, and the flat
metadata summary, as assembled by `load_documents`. -/
structure IndexedDoc where
  id : String
  text : String
  metadata : MetadataSummary

/-- Result of one vector-store query: the requested `n_results` and the
parallel document/metadata lists (`results['documents'][0]` and
`results['metadatas'][0]` of the chroma response). -/
structure QueryResults where
  requested : Nat
  docs : List String
  metadatas : List MetadataSummary

/-- Modelled from the spec: the Corpus Index collaborator's
`semantic_query(text, k)` (chroma's `collection.query`) returns the `k`
most similar documents with their metadata; the similarity ranking itself
is external, so the handle's stored order stands in for ranked order. -/
def collectionQuery (corpus : List IndexedDoc) (_q : String) (k : Nat) :
    QueryResults :=
  { requested := k
    docs := (corpus.take k).map (fun d => d.text)
    metadatas := (corpus.take k).map (fun d => d.metadata) }

/-- The `venc` test of `handle_global_query` line 104:
`"venc" in query.lower()`. -/
def vencMatch (q : String) : Bool :=
  pyInStr "venc" (pyLowerStr q)

/-- The area test of `handle_global_query` line 113:
`"área" in query.lower() or "area" in query.lower()`. -/
def areaMatch (q : String) : Bool :=
  pyInStr "área" (pyLowerStr q) || pyInStr "area" (pyLowerStr q)

/-- The list comprehension of the `venc` branch
(`app_iguatemi.py` lines 106-112): one `{store, end_date}` object per
metadata entry whose `contract_end` is truthy. -/
def expirationContracts : List MetadataSummary → List Json
  | [] => []
  | m :: rest =>
    if pyTruthy m.contract_end then
      Json.obj [("store", m.store_name), ("end_date", m.contract_end)] ::
        expirationContracts rest
    else expirationContracts rest

/-- The list comprehension of the area branch
(`app_iguatemi.py` lines 114-121): one `{store, area}` object per
metadata entry whose `store_area` is truthy. -/
def areaStores : List MetadataSummary → List Json
  | [] => []
  | m :: rest =>
    if pyTruthy m.store_area then
      Json.obj [("store", m.store_name), ("area", m.store_area)] ::
        areaStores rest
    else areaStores rest

/-- GLOBAL sub-intent, decided by the `if`/`elif`/`else` chain of
`handle_global_query`. -/
inductive SubRoute where
  | expiration
  | area
  | general
deriving DecidableEq

/-- Secondary classification of a GLOBAL question, following the source's
check order: `venc` first, then area, else general. -/
def globalSubRoute (q : String) : SubRoute :=
  if vencMatch q then .expiration
  else if areaMatch q then .area
  else .general

/-- The function `handle_global_query` (`app_iguatemi.py` lines 101-129):
returns the pair `(results, relevant_data)` — retrieval results for the
general branch, a structured summary dict for the `venc`/area branches. -/
def handle_global_query (q : String) (metadata_list : List MetadataSummary)
    (corpus : List IndexedDoc) : Option QueryResults × Option Json :=
  if vencMatch q then
    (none, some (Json.obj [("contracts", Json.arr (expirationContracts metadata_list))]))
  else if areaMatch q then
    (none, some (Json.obj [("stores", Json.arr (areaStores metadata_list))]))
  else
    (some (collectionQuery corpus q 100), none)

/-- The function `handle_store_query` (`app_iguatemi.py` lines 131-137):
a semantic query with `n_results=1`. -/
def handle_store_query (q : String) (corpus : List IndexedDoc) :
    QueryResults :=
  collectionQuery corpus q 1

/-- The chroma delete filter of `load_documents` line 66
(`where={"store_name": {"$exists": True}}`): matches a document whose
metadata dict has a `store_name` key. -/
def matchesStoreNameExists (d : IndexedDoc) : Bool :=
  ((metaDict d.metadata).lookup "store_name").isSome

/-- The per-file loop of `load_documents` (`app_iguatemi.py` lines 75-86),
starting at file index `i`: reads and parses each file (`Except.error`
models an unreadable or malformed file), extracts metadata, and builds
the parallel document/metadata lists with ids `doc_i` from the
enumeration order. `none` models an exception escaping the loop. -/
def processFiles (i : Nat) :
    List (Except String Json) → Option (List IndexedDoc × List MetadataSummary)
  | [] => some ([], [])
  | f :: rest => do
    let content ← f.toOption
    let metadata ← extract_metadata content
    let (docs, metas) ← processFiles (i + 1) rest
    pure (⟨"doc_" ++ toString i, dumps content, metadata⟩ :: docs,
          metadata :: metas)

/-- The function `load_documents` (`app_iguatemi.py` lines 52-99).
Inputs model the ambient state: `prior` is the current contents of the
persistent chroma collection, `files` the parsed contents of the
directory's JSON files in `glob` order. First the existing documents
matching the `store_name`-exists filter are deleted (only when the
collection is nonempty), then each file is processed and the new
documents added (only when at least one was built). Any exception is
caught and `(None, None)` returned, modelled as `none`. The vector-store
operations themselves (get, delete-by-filter, add) are modelled from the
spec's Corpus Index interface. -/
def load_documents (prior : List IndexedDoc)
    (files : List (Except String Json)) :
    Option (List IndexedDoc × List MetadataSummary) :=
  let cleared :=
    if 0 < prior.length then
      prior.filter (fun d => !matchesStoreNameExists d)
    else prior
  match processFiles 0 files with
  | none => none
  | some (docs, metas) =>
    some ((if !docs.isEmpty then cleared ++ docs else cleared), metas)

/-- Session state holding the collection handle and the metadata list,
as set by `main` lines 174-178. -/
structure Session where
  collection : List IndexedDoc
  metadata : List MetadataSummary

/-- The session initialization of `main` lines 174-178: the state is set
only when `collection and metadata` is truthy — `load_documents` must
have succeeded and the metadata list must be nonempty (a collection
handle object itself is always truthy). -/
def initSession
    (res : Option (List IndexedDoc × List MetadataSummary)) :
    Option Session :=
  match res with
  | some (coll, metas) =>
    if !metas.isEmpty then some ⟨coll, metas⟩ else none
  | none => none

/-- What is handed to `get_chat_response`: either a metadata summary
(`get_chat_response(query, "", metadata_summary)`) or a plain document
context string. -/
inductive SynthInput where
  | summary (s : Json)
  | context (c : String)

/-- The query-processing body of `main` (`app_iguatemi.py` lines
182-203): gate on a nonempty question and a session collection, route
globally or store-specifically, assemble the context, and call synthesis.
`none` models that no synthesis call happens — either the gate failed or
an uncaught exception (the store branch's `results['documents'][0][0]`
on an empty result list) aborted the script. -/
def processQuery (sess : Option Session) (q : String) : Option SynthInput :=
  match sess with
  | none => none
  | some s =>
    if q = "" then none
    else if isGlobalQuery q then
      match handle_global_query q s.metadata s.collection with
      | (results, some ms) =>
        if pyTruthy ms then some (.summary ms)
        else some (.context (match results with
          | some r => String.intercalate "\n\n" r.docs
          | none => ""))
      | (results, none) =>
        some (.context (match results with
          | some r => String.intercalate "\n\n" r.docs
          | none => ""))
    else
      ((handle_store_query q s.collection).docs.head?).map .context

/-- Whether a JSON value is a non-blank string. This captures the
specification's notion of a non-blank metadata field only for
string-valued fields (such as the date-as-string `contract_end`); it
deliberately classifies no non-string value as non-blank, so statements
using it restrict to string-typed fields. -/
def isNonBlankStr : Json → Bool
  | .str s => s != ""
  | _ => false

/-- Whether a metadata field value is blank in the specification's
sense: the empty string, the extractor's default for an absent path.
Numeric values — the spec types `store_area` numeric-or-string — are
never blank. -/
def isBlankField : Json → Bool
  | .str s => s == ""
  | _ => false

/-- Whether a key of a JSON object is absent, or present with an object
value. -/
def objOrAbsent (j : Json) (k : String) : Bool :=
  (jLookup j k).elim true Json.isObjB

/-- Shape condition on the `contratos` value under which the code's
first-contract dereference is safe: falsy, or a nonempty array whose
first element is an object with object-or-absent `objeto` and
`vigencia`. -/
def contratosShaped (v : Json) : Bool :=
  !pyTruthy v ||
  (match v with
   | .arr (c :: _) =>
     c.isObjB && objOrAbsent c "objeto" && objOrAbsent c "vigencia"
   | _ => false)

/-- Shape condition on a contract record under which every `.get` chain
of `extract_metadata` lands on a dict: the record is an object, `loja`
(when present) is an object, and `contratos` (when present) satisfies
`contratosShaped`. -/
def wellShaped (content : Json) : Bool :=
  content.isObjB &&
  objOrAbsent content "loja" &&
  (jLookup content "contratos").elim true contratosShaped

/-- The effective first contract sub-record used by `extract_metadata`:
`content.get('contratos', [{}])[0] if content.get('contratos') else {}`,
as a partial value (`none` when the subscript would raise). -/
def contrato0 (content : Json) : Option Json :=
  (pyGet content "contratos").bind contratoOf

/-- Whether the source path `loja.k` is absent from a contract record
(either `loja` itself or the key `k` under it). -/
def lojaKeyAbsent (content : Json) (k : String) : Bool :=
  (jLookup ((jLookup content "loja").getD (Json.obj [])) k).isNone

/-- Whether the source path `contratos[0].k` is absent from a contract
record. -/
def contratoKeyAbsent (content : Json) (k : String) : Bool :=
  (contrato0 content).elim false (fun c => (jLookup c k).isNone)

/-- Whether the source path `contratos[0].k₁.k₂` is absent from a
contract record. -/
def contratoPathAbsent (content : Json) (k₁ k₂ : String) : Bool :=
  (contrato0 content).elim false
    (fun c => (jLookup ((jLookup c k₁).getD (Json.obj [])) k₂).isNone)

/-- Whether reading or processing a source file raises: the file is
unreadable/unparsable, or `extract_metadata` raises on its content. -/
def fileFails (f : Except String Json) : Bool :=
  match f with
  | .error _ => true
  | .ok c => (extract_metadata c).isNone

/-- The all-blank metadata summary (also the `getD` default used in
theorem statements). -/
def blankMeta : MetadataSummary :=
  ⟨.str "", .str "", .str "", .str "", .str "", .str "", .str "", .str ""⟩

/-- Placeholder indexed document used as a `getD` default in theorem
statements. -/
def defaultDoc : IndexedDoc :=
  ⟨"", "", blankMeta⟩

/-- Convenience constructor for concrete metadata summaries in witnesses:
name, contract end date and area as strings, everything else blank. -/
def mkMeta (name endDate area : String) : MetadataSummary :=
  ⟨.str name, .str "", .str "", .str area, .str "", .str endDate,
   .str "", .str ""⟩

/-- Convenience constructor for concrete metadata summaries with an
arbitrarily typed `store_area` (the spec types it numeric-or-string),
everything else blank. -/
def mkMetaArea (name : String) (area : Json) : MetadataSummary :=
  ⟨.str name, .str "", .str "", area, .str "", .str "", .str "", .str ""⟩
/-- C1: the primary classification returns GLOBAL iff the lowercased
question contains some keyword of the fixed list as a substring, and
STORE_SPECIFIC otherwise; it is case-insensitive in that questions with
the same lowercasing classify identically. -/
theorem classify_global_iff_keyword :
    (∀ q : String, classify q = QueryType.global ↔
      ∃ kw ∈ globalKeywords, kw.data <:+: (pyLowerStr q).data) ∧
    (∀ q₁ q₂ : String, pyLowerStr q₁ = pyLowerStr q₂ →
      classify q₁ = classify q₂) := by
  constructor
  · intro q
    unfold classify
    constructor
    · intro h
      by_cases hg : isGlobalQuery q = true
      · rcases List.any_eq_true.mp hg with ⟨kw, hkw, hin⟩
        exact ⟨kw, hkw, of_decide_eq_true hin⟩
      · simp [hg] at h
    · rintro ⟨kw, hkw, hin⟩
      have hg : isGlobalQuery q = true :=
        List.any_eq_true.mpr ⟨kw, hkw, decide_eq_true hin⟩
      simp [hg]
  · intro q₁ q₂ h
    unfold classify isGlobalQuery pyInStr
    rw [h]

/-- C1 witness: a question containing the keyword `todos` is GLOBAL, and
`TODOS` and `todos` classify identically. -/
theorem classify_global_iff_keyword_witness :
    classify "mostre TODOS os dados" = QueryType.global ∧
    classify "TODOS" = classify "todos" :=
  ⟨(classify_global_iff_keyword.1 "mostre TODOS os dados").mpr
      ⟨"todos", by decide, by decide⟩,
    classify_global_iff_keyword.2 "TODOS" "todos" (by decide)⟩


/-- C5: a GLOBAL question matching both the expiration stem and an area
keyword is routed to EXPIRATION — the `venc` check is evaluated before
the area check, and `handle_global_query` then builds the contracts
summary without retrieval. -/
theorem expiration_wins_tie (q : String) (metas : List MetadataSummary)
    (corpus : List IndexedDoc)
    (hv : vencMatch q = true) (ha : areaMatch q = true) :
    globalSubRoute q = SubRoute.expiration ∧
    (handle_global_query q metas corpus).1 = none ∧
    ∃ l, (handle_global_query q metas corpus).2 =
      some (Json.obj [("contracts", Json.arr l)]) := by
  refine ⟨?_, ?_, ?_⟩ <;> simp [globalSubRoute, handle_global_query, hv, ha]

/-- C5 witness: a concrete question matching both stems routes to
EXPIRATION. -/
theorem expiration_wins_tie_witness :
    globalSubRoute "vencimento por área" = SubRoute.expiration ∧
    (handle_global_query "vencimento por área" [] []).1 = none ∧
    ∃ l, (handle_global_query "vencimento por área" [] []).2 =
      some (Json.obj [("contracts", Json.arr l)]) :=
  expiration_wins_tie "vencimento por área" [] [] (by decide) (by decide)

/-- On a metadata list of string-valued `contract_end` fields, the
`venc`-branch comprehension keeps exactly the non-blank entries, in
order, projected to `{store, end_date}` objects. -/
theorem expirationContracts_eq_filter_map (metas : List MetadataSummary)
    (h : ∀ m ∈ metas, (m.contract_end).isStrB = true) :
    expirationContracts metas =
      (metas.filter (fun m => isNonBlankStr m.contract_end)).map
        (fun m => Json.obj [("store", m.store_name),
                            ("end_date", m.contract_end)]) := by
  induction metas with
  | nil => rfl
  | cons m rest ih =>
    have hm := h m (by simp)
    have hrest : ∀ m' ∈ rest, (m'.contract_end).isStrB = true :=
      fun m' hm' => h m' (by simp [hm'])
    obtain ⟨s, hs⟩ : ∃ s, m.contract_end = Json.str s := by
      cases hce : m.contract_end <;> simp_all [Json.isStrB]
    by_cases hblank : s = "" <;>
      simp [expirationContracts, hs, hblank, pyTruthy, isNonBlankStr,
            List.filter_cons, ih hrest]

/-- The area-branch comprehension keeps exactly the entries whose
`store_area` is truthy, in order, projected to `{store, area}`
objects. -/
theorem areaStores_eq_filter_map (metas : List MetadataSummary) :
    areaStores metas =
      (metas.filter (fun m => pyTruthy m.store_area)).map
        (fun m => Json.obj [("store", m.store_name),
                            ("area", m.store_area)]) := by
  induction metas with
  | nil => rfl
  | cons m rest ih =>
    by_cases ht : pyTruthy m.store_area = true <;>
      simp [areaStores, ht, List.filter_cons, ih]

/-- C2 counterexample: a metadata collection holding one entry with the
numeric `store_area` value `0` — non-blank in the specification's sense,
since blank means the empty string — produces an empty AREA summary: the
code filters by Python truthiness and drops the numeric zero, so the
summary does not contain one pair per non-blank entry. -/
theorem structured_summary_numeric_area_cex :
    isBlankField (Json.num 0) = false ∧
    handle_global_query "qual a area de todas as lojas"
        [mkMetaArea "Loja Zero" (Json.num 0)] [] =
      (none, some (Json.obj [("stores", Json.arr [])])) :=
  ⟨rfl, rfl⟩

/-- C2 amended: on the EXPIRATION route, for string-valued
`contract_end` fields (the spec's date-as-string typing), the structured
summary is exactly the `{store, end_date}` pairs of the entries with
non-blank `contract_end`, in collection order; on the AREA route the
summary is exactly the `{store, area}` pairs of the entries whose
`store_area` is truthy — non-blank for string values, while a numeric
`0` is dropped as well — in collection order. -/
theorem structured_summary_filter_rule (q : String)
    (metas : List MetadataSummary) (corpus : List IndexedDoc) :
    (vencMatch q = true →
      (∀ m ∈ metas, (m.contract_end).isStrB = true) →
      handle_global_query q metas corpus =
        (none, some (Json.obj [("contracts", Json.arr
          ((metas.filter (fun m => isNonBlankStr m.contract_end)).map
            (fun m => Json.obj [("store", m.store_name),
                                ("end_date", m.contract_end)])))]))) ∧
    (vencMatch q = false → areaMatch q = true →
      handle_global_query q metas corpus =
        (none, some (Json.obj [("stores", Json.arr
          ((metas.filter (fun m => pyTruthy m.store_area)).map
            (fun m => Json.obj [("store", m.store_name),
                                ("area", m.store_area)])))]))) := by
  constructor
  · intro hv hstr
    simp [handle_global_query, hv, expirationContracts_eq_filter_map metas hstr]
  · intro hv ha
    simp [handle_global_query, hv, ha, areaStores_eq_filter_map metas]

/-- C2 witness: with one non-blank and one blank `contract_end` the
EXPIRATION summary holds exactly the non-blank entry's pair; with one
truthy numeric and one zero `store_area` the AREA summary holds exactly
the truthy entry's pair. -/
theorem structured_summary_filter_rule_witness :
    handle_global_query "vencimentos de todos"
        [mkMeta "Loja A" "2026-01-01" "", mkMeta "Loja B" "" "120"] [] =
      (none, some (Json.obj [("contracts", Json.arr
        (([mkMeta "Loja A" "2026-01-01" "", mkMeta "Loja B" "" "120"].filter
            (fun m => isNonBlankStr m.contract_end)).map
          (fun m => Json.obj [("store", m.store_name),
                              ("end_date", m.contract_end)])))])) ∧
    handle_global_query "qual a area de todas as lojas"
        [mkMetaArea "Loja Cinco" (Json.num 5),
         mkMetaArea "Loja Zero" (Json.num 0)] [] =
      (none, some (Json.obj [("stores", Json.arr
        (([mkMetaArea "Loja Cinco" (Json.num 5),
           mkMetaArea "Loja Zero" (Json.num 0)].filter
            (fun m => pyTruthy m.store_area)).map
          (fun m => Json.obj [("store", m.store_name),
                              ("area", m.store_area)])))])) :=
  ⟨(structured_summary_filter_rule "vencimentos de todos"
      [mkMeta "Loja A" "2026-01-01" "", mkMeta "Loja B" "" "120"] []).1
    (by decide) (by decide),
   (structured_summary_filter_rule "qual a area de todas as lojas"
      [mkMetaArea "Loja Cinco" (Json.num 5),
       mkMetaArea "Loja Zero" (Json.num 0)] []).2
    (by decide) (by decide)⟩

/-- When every `contract_end` is falsy, the `venc`-branch comprehension
is empty. -/
theorem expirationContracts_eq_nil (metas : List MetadataSummary)
    (h : metas.all (fun m => !pyTruthy m.contract_end) = true) :
    expirationContracts metas = [] := by
  induction metas with
  | nil => rfl
  | cons m rest ih =>
    simp only [List.all_cons, Bool.and_eq_true, Bool.not_eq_true'] at h
    simp [expirationContracts, h.1, ih (by simpa using h.2)]

/-- When every `store_area` is falsy, the area-branch comprehension is
empty. -/
theorem areaStores_eq_nil (metas : List MetadataSummary)
    (h : metas.all (fun m => !pyTruthy m.store_area) = true) :
    areaStores metas = [] := by
  induction metas with
  | nil => rfl
  | cons m rest ih =>
    simp only [List.all_cons, Bool.and_eq_true, Bool.not_eq_true'] at h
    simp [areaStores, h.1, ih (by simpa using h.2)]

/-- C10: when no metadata entry qualifies for the chosen sub-route, the
route still produces a structured summary holding an empty list, no
semantic retrieval is issued, and synthesis is invoked with that
summary. -/
theorem empty_subroute_summary_still_synthesized (q : String)
    (metas : List MetadataSummary) (corpus : List IndexedDoc)
    (hq : q ≠ "") (hg : isGlobalQuery q = true) :
    (vencMatch q = true →
      metas.all (fun m => !pyTruthy m.contract_end) = true →
      handle_global_query q metas corpus =
        (none, some (Json.obj [("contracts", Json.arr [])])) ∧
      processQuery (some ⟨corpus, metas⟩) q =
        some (.summary (Json.obj [("contracts", Json.arr [])]))) ∧
    (vencMatch q = false → areaMatch q = true →
      metas.all (fun m => !pyTruthy m.store_area) = true →
      handle_global_query q metas corpus =
        (none, some (Json.obj [("stores", Json.arr [])])) ∧
      processQuery (some ⟨corpus, metas⟩) q =
        some (.summary (Json.obj [("stores", Json.arr [])]))) := by
  constructor
  · intro hv hall
    have he := expirationContracts_eq_nil metas hall
    constructor
    · simp [handle_global_query, hv, he]
    · simp [processQuery, hq, hg, handle_global_query, hv, he, pyTruthy]
  · intro hv ha hall
    have he := areaStores_eq_nil metas hall
    constructor
    · simp [handle_global_query, hv, ha, he]
    · simp [processQuery, hq, hg, handle_global_query, hv, ha, he, pyTruthy]

/-- C10 witness: a global expiration question over metadata whose only
entry has a blank `contract_end` yields the empty-list summary and a
synthesis call carrying it. -/
theorem empty_subroute_summary_still_synthesized_witness :
    handle_global_query "vencimento de todos" [mkMeta "Loja A" "" "120"] [] =
      (none, some (Json.obj [("contracts", Json.arr [])])) ∧
    processQuery (some ⟨[], [mkMeta "Loja A" "" "120"]⟩)
        "vencimento de todos" =
      some (.summary (Json.obj [("contracts", Json.arr [])])) :=
  (empty_subroute_summary_still_synthesized "vencimento de todos"
      [mkMeta "Loja A" "" "120"] [] (by decide) (by decide)).1
    (by decide) (by decide)

/-- C6: every semantic query issued by the GLOBAL route requests at most
100 matches; the STORE_SPECIFIC route's query requests exactly 1 match
and, on a nonempty corpus, returns a single-document context. -/
theorem retrieval_request_bounds (q : String)
    (metas : List MetadataSummary) (corpus : List IndexedDoc) :
    (∀ r, (handle_global_query q metas corpus).1 = some r →
      r.requested ≤ 100) ∧
    (handle_store_query q corpus).requested = 1 ∧
    (corpus ≠ [] → (handle_store_query q corpus).docs.length = 1) := by
  refine ⟨?_, rfl, ?_⟩
  · intro r hr
    unfold handle_global_query at hr
    by_cases hv : vencMatch q = true
    · simp [hv] at hr
    · by_cases ha : areaMatch q = true
      · simp [hv, ha] at hr
      · simp only [hv, ha, Bool.false_eq_true, if_false,
          Option.some.injEq] at hr
        subst hr
        exact Nat.le_refl 100
  · intro hne
    simp [handle_store_query, collectionQuery, List.length_take,
      Nat.min_eq_left, Nat.one_le_iff_ne_zero,
      List.length_eq_zero, hne]

/-- C6 witness: on a one-document corpus, the GENERAL route's query
requests 100 matches (within the bound) and the store route requests 1
and returns exactly one document. -/
theorem retrieval_request_bounds_witness :
    (collectionQuery [defaultDoc] "qual o contrato da loja x" 100).requested
      ≤ 100 ∧
    (handle_store_query "qual o contrato da loja x" [defaultDoc]).requested
      = 1 ∧
    (handle_store_query "qual o contrato da loja x" [defaultDoc]).docs.length
      = 1 := by
  refine ⟨?_, ?_, ?_⟩
  · exact (retrieval_request_bounds "qual o contrato da loja x" [] [defaultDoc]).1
      (collectionQuery [defaultDoc] "qual o contrato da loja x" 100) rfl
  · exact (retrieval_request_bounds "qual o contrato da loja x" [] [defaultDoc]).2.1
  · exact (retrieval_request_bounds "qual o contrato da loja x" [] [defaultDoc]).2.2
      (List.cons_ne_nil _ _)

/-- C3 counterexample: against an empty corpus (no source files),
ingestion returns an empty metadata collection, the session guard
`if collection and metadata` rejects it, and a question produces no
synthesis call at all — synthesis is skipped, not invoked with an empty
context. -/
theorem empty_corpus_no_synthesis_cex :
    processQuery (initSession (load_documents [] []))
      "quantas lojas temos no total?" = none := rfl

/-- C3 amended: on an empty corpus, ingestion succeeds with an empty
index and empty metadata collection, but the session acquires no index
(the empty metadata list fails the truthiness guard), so no question is
processed and synthesis is never invoked; moreover the store route's
context extraction (`results['documents'][0][0]`) finds no document on
an empty index rather than yielding an empty context. -/
theorem empty_corpus_skips_synthesis (q : String) :
    load_documents [] [] = some ([], []) ∧
    initSession (load_documents [] []) = none ∧
    processQuery (initSession (load_documents [] [])) q = none ∧
    (handle_store_query q []).docs.head? = none :=
  ⟨rfl, rfl, rfl, rfl⟩


/-- C4 counterexample: the extractor is not total — on the record
`{"loja": "texto"}` (a present `loja` that is not an object) the
`.get` attribute access raises, modelled as `none`. -/
theorem extract_metadata_not_total_cex :
    extract_metadata (Json.obj [("loja", Json.str "texto")]) = none := rfl

/-- Computation of `extract_metadata` on an object record whose relevant
sub-values land on objects: each field is the nested lookup with the
empty-string default. -/
theorem extract_metadata_shape (kvs lkvs ckvs okvs vkvs : List (String × Json))
    (hl : (List.lookup "loja" kvs).getD (Json.obj []) = Json.obj lkvs)
    (hc : contratoOf (List.lookup "contratos" kvs) = some (Json.obj ckvs))
    (ho : (List.lookup "objeto" ckvs).getD (Json.obj []) = Json.obj okvs)
    (hv : (List.lookup "vigencia" ckvs).getD (Json.obj []) = Json.obj vkvs) :
    extract_metadata (Json.obj kvs) = some
      ⟨(List.lookup "nome_fantasia" lkvs).getD (Json.str ""),
       (List.lookup "cnpj" lkvs).getD (Json.str ""),
       (List.lookup "numero_contrato" ckvs).getD (Json.str ""),
       (List.lookup "area_privativa" okvs).getD (Json.str ""),
       (List.lookup "data_inicial" vkvs).getD (Json.str ""),
       (List.lookup "data_final" vkvs).getD (Json.str ""),
       (List.lookup "piso" okvs).getD (Json.str ""),
       (List.lookup "loja" okvs).getD (Json.str "")⟩ := by
  unfold extract_metadata
  simp only [pyGetD, pyGet]
  rw [hl]
  rw [Option.bind_eq_bind', Option.some_bind]
  rw [Option.bind_eq_bind', Option.some_bind]
  rw [hc]
  rw [Option.bind_eq_bind', Option.some_bind]
  simp only [pyGetD]
  rw [ho, hv]
  repeat rw [Option.bind_eq_bind', Option.some_bind]
  rfl

/-- A field read through the `loja` sub-record defaults to `""` when its
source path is absent. -/
theorem lojaField_default (kvs lkvs : List (String × Json)) (k : String)
    (hl : (List.lookup "loja" kvs).getD (Json.obj []) = Json.obj lkvs)
    (habs : lojaKeyAbsent (Json.obj kvs) k = true) :
    (List.lookup k lkvs).getD (Json.str "") = Json.str "" := by
  simp only [lojaKeyAbsent, jLookup, hl, Option.isNone_iff_eq_none] at habs
  simp [habs]

/-- A field read directly off the first contract sub-record defaults to
`""` when its source path is absent. -/
theorem contratoField_default (kvs ckvs : List (String × Json)) (k : String)
    (hc : contratoOf (List.lookup "contratos" kvs) = some (Json.obj ckvs))
    (habs : contratoKeyAbsent (Json.obj kvs) k = true) :
    (List.lookup k ckvs).getD (Json.str "") = Json.str "" := by
  have hc0 : contrato0 (Json.obj kvs) = some (Json.obj ckvs) := by
    simp only [contrato0, pyGet, Option.some_bind, hc]
  simp only [contratoKeyAbsent, hc0, Option.elim_some, jLookup,
    Option.isNone_iff_eq_none] at habs
  simp [habs]

/-- A field read through a nested sub-record of the first contract
defaults to `""` when its source path is absent. -/
theorem contratoPathField_default (kvs ckvs okvs : List (String × Json))
    (k₁ k₂ : String)
    (hc : contratoOf (List.lookup "contratos" kvs) = some (Json.obj ckvs))
    (ho : (List.lookup k₁ ckvs).getD (Json.obj []) = Json.obj okvs)
    (habs : contratoPathAbsent (Json.obj kvs) k₁ k₂ = true) :
    (List.lookup k₂ okvs).getD (Json.str "") = Json.str "" := by
  have hc0 : contrato0 (Json.obj kvs) = some (Json.obj ckvs) := by
    simp only [contrato0, pyGet, Option.some_bind, hc]
  simp only [contratoPathAbsent, hc0, Option.elim_some, jLookup, ho,
    Option.isNone_iff_eq_none] at habs
  simp [habs]

/-- C4 amended: the extractor is total on every contract record whose
present intermediate values have the shapes the code dereferences —
`loja`, `contratos[0].objeto` and `contratos[0].vigencia` objects when
present, a truthy `contratos` a nonempty array with an object head — and
on such records every one of the eight output fields whose source path
is absent resolves to the empty string. -/
theorem extract_metadata_total_wellShaped (content : Json)
    (hw : wellShaped content = true) :
    ∃ m, extract_metadata content = some m ∧
      (lojaKeyAbsent content "nome_fantasia" = true →
        m.store_name = Json.str "") ∧
      (lojaKeyAbsent content "cnpj" = true → m.cnpj = Json.str "") ∧
      (contratoKeyAbsent content "numero_contrato" = true →
        m.contract_number = Json.str "") ∧
      (contratoPathAbsent content "objeto" "area_privativa" = true →
        m.store_area = Json.str "") ∧
      (contratoPathAbsent content "vigencia" "data_inicial" = true →
        m.contract_start = Json.str "") ∧
      (contratoPathAbsent content "vigencia" "data_final" = true →
        m.contract_end = Json.str "") ∧
      (contratoPathAbsent content "objeto" "piso" = true →
        m.floor = Json.str "") ∧
      (contratoPathAbsent content "objeto" "loja" = true →
        m.store_number = Json.str "") := by
  obtain ⟨kvs, rfl⟩ : ∃ l, content = Json.obj l := by
    cases content <;>
      first
        | exact ⟨_, rfl⟩
        | simp [wellShaped, Json.isObjB] at hw
  simp only [wellShaped, Json.isObjB, Bool.true_and, Bool.and_eq_true,
    jLookup] at hw
  obtain ⟨lkvs, hl⟩ :
      ∃ l, (List.lookup "loja" kvs).getD (Json.obj []) = Json.obj l := by
    cases hll : List.lookup "loja" kvs with
    | none => exact ⟨[], rfl⟩
    | some lv =>
      have hwl := hw.1
      simp only [objOrAbsent, jLookup, hll, Option.elim_some] at hwl
      cases lv <;> simp only [Json.isObjB, Bool.false_eq_true] at hwl
      exact ⟨_, rfl⟩
  obtain ⟨ckvs, hc, hobj, hvig⟩ :
      ∃ c, contratoOf (List.lookup "contratos" kvs) = some (Json.obj c) ∧
        objOrAbsent (Json.obj c) "objeto" = true ∧
        objOrAbsent (Json.obj c) "vigencia" = true := by
    have hwc := hw.2
    cases hcc : List.lookup "contratos" kvs with
    | none => exact ⟨[], rfl, rfl, rfl⟩
    | some v =>
      rw [hcc] at hwc
      simp only [Option.elim_some] at hwc
      by_cases htr : pyTruthy v = true
      · simp only [contratosShaped, htr, Bool.not_true, Bool.false_or] at hwc
        cases v with
        | arr l =>
          cases l with
          | nil => simp at hwc
          | cons c cs =>
            simp only [Bool.and_eq_true] at hwc
            obtain ⟨⟨hc1, hc2⟩, hc3⟩ := hwc
            cases c <;> simp only [Json.isObjB, Bool.false_eq_true] at hc1
            exact ⟨_, rfl, hc2, hc3⟩
        | null => simp at hwc
        | bool b => simp at hwc
        | num n => simp at hwc
        | str s => simp at hwc
        | obj o => simp at hwc
      · have htr' : pyTruthy v = false := by simpa using htr
        exact ⟨[], by simp [contratoOf, htr'], rfl, rfl⟩
  obtain ⟨okvs, ho⟩ :
      ∃ l, (List.lookup "objeto" ckvs).getD (Json.obj []) = Json.obj l := by
    cases hoo : List.lookup "objeto" ckvs with
    | none => exact ⟨[], rfl⟩
    | some ov =>
      simp only [objOrAbsent, jLookup, hoo, Option.elim_some] at hobj
      cases ov <;> simp only [Json.isObjB, Bool.false_eq_true] at hobj
      exact ⟨_, rfl⟩
  obtain ⟨vkvs, hv⟩ :
      ∃ l, (List.lookup "vigencia" ckvs).getD (Json.obj []) = Json.obj l := by
    cases hvv : List.lookup "vigencia" ckvs with
    | none => exact ⟨[], rfl⟩
    | some vv =>
      simp only [objOrAbsent, jLookup, hvv, Option.elim_some] at hvig
      cases vv <;> simp only [Json.isObjB, Bool.false_eq_true] at hvig
      exact ⟨_, rfl⟩
  refine ⟨_, extract_metadata_shape kvs lkvs ckvs okvs vkvs hl hc ho hv,
    fun h => lojaField_default kvs lkvs _ hl h,
    fun h => lojaField_default kvs lkvs _ hl h,
    fun h => contratoField_default kvs ckvs _ hc h,
    fun h => contratoPathField_default kvs ckvs okvs _ _ hc ho h,
    fun h => contratoPathField_default kvs ckvs vkvs _ _ hc hv h,
    fun h => contratoPathField_default kvs ckvs vkvs _ _ hc hv h,
    fun h => contratoPathField_default kvs ckvs okvs _ _ hc ho h,
    fun h => contratoPathField_default kvs ckvs okvs _ _ hc ho h⟩

/-- C4 witness: the empty record is well shaped; every source path is
absent and every extracted field is the empty string. -/
theorem extract_metadata_total_wellShaped_witness :
    ∃ m, extract_metadata (Json.obj []) = some m ∧
      (lojaKeyAbsent (Json.obj []) "nome_fantasia" = true →
        m.store_name = Json.str "") ∧
      (lojaKeyAbsent (Json.obj []) "cnpj" = true → m.cnpj = Json.str "") ∧
      (contratoKeyAbsent (Json.obj []) "numero_contrato" = true →
        m.contract_number = Json.str "") ∧
      (contratoPathAbsent (Json.obj []) "objeto" "area_privativa" = true →
        m.store_area = Json.str "") ∧
      (contratoPathAbsent (Json.obj []) "vigencia" "data_inicial" = true →
        m.contract_start = Json.str "") ∧
      (contratoPathAbsent (Json.obj []) "vigencia" "data_final" = true →
        m.contract_end = Json.str "") ∧
      (contratoPathAbsent (Json.obj []) "objeto" "piso" = true →
        m.floor = Json.str "") ∧
      (contratoPathAbsent (Json.obj []) "objeto" "loja" = true →
        m.store_number = Json.str "") :=
  extract_metadata_total_wellShaped (Json.obj []) (by decide)

/-- The per-file ingestion loop, when it succeeds, produces one document
and one metadata entry per source file, in order: position `j` holds the
`j`-th file's parsed content serialized as text, its extracted summary,
and the id `doc_(i+j)` from the enumeration order. -/
theorem processFiles_spec :
    ∀ (files : List (Except String Json)) (i : Nat)
      (docs : List IndexedDoc) (metas : List MetadataSummary),
    processFiles i files = some (docs, metas) →
    docs.length = files.length ∧ metas.length = files.length ∧
    ∀ j, j < files.length →
      ∃ content,
        files.getD j (Except.error "") = Except.ok content ∧
        extract_metadata content = some (metas.getD j blankMeta) ∧
        docs.getD j defaultDoc =
          ⟨"doc_" ++ toString (i + j), dumps content,
            metas.getD j blankMeta⟩ := by
  intro files
  induction files with
  | nil =>
    intro i docs metas h
    simp only [processFiles, Option.some.injEq, Prod.mk.injEq] at h
    obtain ⟨rfl, rfl⟩ := h
    exact ⟨rfl, rfl, fun j hj => absurd hj (by simp)⟩
  | cons f rest ih =>
    intro i docs metas h
    cases f with
    | error e => simp [processFiles, Except.toOption] at h
    | ok content =>
      simp only [processFiles, Except.toOption, Option.bind_eq_bind,
        Option.some_bind] at h
      cases hm : extract_metadata content with
      | none => simp [hm] at h
      | some metadata =>
        rw [hm] at h
        simp only [Option.some_bind] at h
        cases hrest : processFiles (i + 1) rest with
        | none => simp [hrest] at h
        | some pr =>
          obtain ⟨docs', metas'⟩ := pr
          rw [hrest] at h
          simp only [Option.some_bind, Option.pure_def, Option.some.injEq,
            Prod.mk.injEq] at h
          obtain ⟨rfl, rfl⟩ := h
          obtain ⟨ih1, ih2, ih3⟩ := ih (i + 1) docs' metas' hrest
          refine ⟨by simp [ih1], by simp [ih2], ?_⟩
          intro j hj
          cases j with
          | zero =>
            refine ⟨content, rfl, ?_, ?_⟩
            · simpa using hm
            · simp
          | succ j' =>
            have hj' : j' < rest.length := by simpa using hj
            obtain ⟨c, h1, h2, h3⟩ := ih3 j' hj'
            refine ⟨c, by simpa using h1, by simpa using h2, ?_⟩
            have hik : i + 1 + j' = i + (j' + 1) := by omega
            rw [hik] at h3
            simpa using h3

/-- C7: a successful ingestion run replaces the index wholesale — when
every prior document carries a `store_name` metadata key (as every
document built by this ingester does), the resulting index holds exactly
one document per source file of the run, in order, with id `doc_j` from
the ingestion order, the verbatim serialization as text and the
extracted summary as metadata, and no document of any earlier run
remains. -/
theorem ingestion_replaces_index (prior : List IndexedDoc)
    (files : List (Except String Json)) (idx : List IndexedDoc)
    (metas : List MetadataSummary)
    (hp : prior.all matchesStoreNameExists = true)
    (hload : load_documents prior files = some (idx, metas)) :
    idx.length = files.length ∧ metas.length = files.length ∧
    ∀ j, j < files.length →
      ∃ content,
        files.getD j (Except.error "") = Except.ok content ∧
        extract_metadata content = some (metas.getD j blankMeta) ∧
        idx.getD j defaultDoc =
          ⟨"doc_" ++ toString j, dumps content, metas.getD j blankMeta⟩ := by
  have hcl : prior.filter (fun d => !matchesStoreNameExists d) = [] := by
    rw [List.filter_eq_nil_iff]
    intro d hd
    have := List.all_eq_true.mp hp d hd
    simp [this]
  unfold load_documents at hload
  rw [hcl] at hload
  cases hpf : processFiles 0 files with
  | none => rw [hpf] at hload; simp at hload
  | some pr =>
    obtain ⟨docs, metas'⟩ := pr
    rw [hpf] at hload
    have hbr : (if 0 < prior.length then ([] : List IndexedDoc) else prior) =
        [] := by
      cases prior with
      | nil => simp
      | cons p ps => simp
    rw [hbr] at hload
    simp only [List.nil_append, Option.some.injEq, Prod.mk.injEq] at hload
    obtain ⟨hidx, rfl⟩ := hload
    have hdocs : (if (!docs.isEmpty) = true then docs else []) = docs := by
      cases docs <;> simp
    rw [hdocs] at hidx
    subst hidx
    obtain ⟨h1, h2, h3⟩ := processFiles_spec files 0 docs metas' hpf
    refine ⟨h1, h2, fun j hj => ?_⟩
    obtain ⟨c, hc1, hc2, hc3⟩ := h3 j hj
    exact ⟨c, hc1, hc2, by simpa using hc3⟩

/-- C7 witness: ingesting one empty-record file over a prior
one-document index yields exactly the fresh document with id `doc_0`,
with nothing of the prior index left. -/
theorem ingestion_replaces_index_witness :
    ([IndexedDoc.mk "doc_0" (dumps (Json.obj [])) blankMeta] :
        List IndexedDoc).length =
      ([Except.ok (Json.obj [])] : List (Except String Json)).length ∧
    ([blankMeta] : List MetadataSummary).length =
      ([Except.ok (Json.obj [])] : List (Except String Json)).length ∧
    ∀ j, j < ([Except.ok (Json.obj [])] : List (Except String Json)).length →
      ∃ content,
        ([Except.ok (Json.obj [])] : List (Except String Json)).getD j
            (Except.error "") = Except.ok content ∧
        extract_metadata content =
          some (([blankMeta] : List MetadataSummary).getD j blankMeta) ∧
        ([IndexedDoc.mk "doc_0" (dumps (Json.obj [])) blankMeta] :
            List IndexedDoc).getD j defaultDoc =
          ⟨"doc_" ++ toString j, dumps content,
            ([blankMeta] : List MetadataSummary).getD j blankMeta⟩ :=
  ingestion_replaces_index [⟨"doc_velho", "texto antigo", blankMeta⟩]
    [Except.ok (Json.obj [])]
    [⟨"doc_0", dumps (Json.obj []), blankMeta⟩] [blankMeta]
    (by rfl) (by rfl)

/-- When any file of the run fails (unreadable, unparsable, or raising
extraction), the ingestion loop raises and yields no lists. -/
theorem processFiles_fail :
    ∀ (files : List (Except String Json)) (i : Nat),
    files.any fileFails = true → processFiles i files = none := by
  intro files
  induction files with
  | nil => intro i h; simp at h
  | cons f rest ih =>
    intro i h
    simp only [List.any_cons, Bool.or_eq_true] at h
    cases f with
    | error e => simp [processFiles, Except.toOption]
    | ok c =>
      rcases h with h | h
      · simp only [fileFails] at h
        rw [Option.isNone_iff_eq_none] at h
        simp [processFiles, Except.toOption, h]
      · cases hm : extract_metadata c <;>
          simp [processFiles, Except.toOption, hm, ih (i + 1) h]

/-- C8: if any step of an ingestion run fails, `load_documents` returns
no usable handle (`(None, None)`, modelled as `none`) and the session
acquires no index, so no partial index is exposed. -/
theorem ingestion_failure_no_partial_index (prior : List IndexedDoc)
    (files : List (Except String Json))
    (h : files.any fileFails = true) :
    load_documents prior files = none ∧
    initSession (load_documents prior files) = none := by
  have hn : processFiles 0 files = none := processFiles_fail files 0 h
  have hl : load_documents prior files = none := by
    unfold load_documents
    rw [hn]
  exact ⟨hl, by rw [hl]; rfl⟩

/-- C8 witness: a run over a directory with one unreadable file returns
no handle and leaves the session without an index. -/
theorem ingestion_failure_no_partial_index_witness :
    load_documents [] [Except.error "arquivo ilegivel"] = none ∧
    initSession (load_documents [] [Except.error "arquivo ilegivel"]) =
      none :=
  ingestion_failure_no_partial_index [] [Except.error "arquivo ilegivel"]
    (by rfl)

/-- The metadata collection produced by ingestion does not depend on the
prior contents of the index. -/
theorem ingestion_metadata_prior_independent
    (prior₁ prior₂ : List IndexedDoc)
    (files : List (Except String Json)) :
    (load_documents prior₁ files).map (fun p => p.2) =
      (load_documents prior₂ files).map (fun p => p.2) := by
  unfold load_documents
  cases processFiles 0 files with
  | none => rfl
  | some pr => rfl

/-- C9: re-running ingestion over the unchanged directory (the same file
contents, in the same enumeration order) yields the same metadata
collection — extraction is a pure function of the file contents, and the
first run's index does not influence the second run's metadata — hence
in particular the same multiset of summaries. -/
theorem ingestion_idempotent_metadata (prior : List IndexedDoc)
    (files : List (Except String Json)) (idx₁ idx₂ : List IndexedDoc)
    (metas₁ metas₂ : List MetadataSummary)
    (h₁ : load_documents prior files = some (idx₁, metas₁))
    (h₂ : load_documents idx₁ files = some (idx₂, metas₂)) :
    metas₂ = metas₁ ∧
    (metas₂ : Multiset MetadataSummary) =
      (metas₁ : Multiset MetadataSummary) := by
  have h := ingestion_metadata_prior_independent prior idx₁ files
  rw [h₁, h₂] at h
  simp only [Option.map_some', Option.some.injEq] at h
  exact ⟨h.symm, congrArg Multiset.ofList h.symm⟩

/-- C9 witness: two successive runs over the same one-file directory
produce the same metadata collection. -/
theorem ingestion_idempotent_metadata_witness :
    ([blankMeta] : List MetadataSummary) = [blankMeta] ∧
    (([blankMeta] : List MetadataSummary) : Multiset MetadataSummary) =
      ([blankMeta] : List MetadataSummary) :=
  ingestion_idempotent_metadata [] [Except.ok (Json.obj [])]
    [⟨"doc_0", dumps (Json.obj []), blankMeta⟩]
    [⟨"doc_0", dumps (Json.obj []), blankMeta⟩]
    [blankMeta] [blankMeta] (by rfl) (by rfl)
